import Mathlib

/-!
Verification of the EvoMaster agent tool-orchestration runtime.

Shallow embedding of:
* the ResearchPlanner plan pipeline
  (src/playground/mat_master/core/solvers/research_planner.py):
  step/plan normalization, the CRP policy watchdog, the step-execution loop;
* the resilient calculation loop
  (src/playground/mat_master/core/exp/resilient_calc_exp.py);
* the MCP synchronous call bridge (src/evomaster/agent/tools/mcp/mcp.py);
* the MCP tool manager add/remove server lifecycle
  (src/evomaster/agent/tools/mcp/mcp_manager.py);
* the calculation path adaptor
  (src/evomaster/adaptors/calculation/path_adaptor.py) together with the
  Bohrium credential helpers (src/evomaster/env/bohrium.py).

Python dictionaries of known shape are embedded as structures with
`Option`-typed fields (`none` models an absent key); Python truthiness on
strings (empty string falsy) is modelled explicitly.
-/

namespace EvoMaster

/-! ## String helpers (Python semantics)

All character-level operations are implemented over the code-point list
(`String.data`): Python strings are code-point sequences, and this keeps
every definition computable by the kernel. -/

/-- Python `s.lower()`. -/
def pyLower (s : String) : String :=
  String.mk (s.data.map Char.toLower)

/-- Python `s.upper()`. -/
def pyUpper (s : String) : String :=
  String.mk (s.data.map Char.toUpper)

/-- Python `s.strip()`: drop whitespace from both ends. -/
def pyStrip (s : String) : String :=
  String.mk
    (((s.data.dropWhile Char.isWhitespace).reverse.dropWhile
      Char.isWhitespace).reverse)

/-- Python `s.startswith(p)`. -/
def pyStartsWith (s p : String) : Bool :=
  p.data.isPrefixOf s.data

/-- Python `s.endswith(p)`. -/
def pyEndsWith (s p : String) : Bool :=
  p.data.reverse.isPrefixOf s.data.reverse

/-- Python `s[n:]` (drop the first `n` code points). -/
def pyDrop (n : Nat) (s : String) : String :=
  String.mk (s.data.drop n)

/-- Python `s[:n]` (take the first `n` code points). -/
def pyTake (n : Nat) (s : String) : String :=
  String.mk (s.data.take n)

/-- Python `s.replace(c, d)` for one-character patterns. -/
def pyReplaceChar (c d : Char) (s : String) : String :=
  String.mk (s.data.map (fun x => if x = c then d else x))

/-- Code-point-wise lexicographic order on strings (Python `<=`). -/
def strListLe : List Char → List Char → Bool
  | [], _ => true
  | _ :: _, [] => false
  | a :: as, b :: bs =>
    if a.toNat < b.toNat then true
    else if b.toNat < a.toNat then false
    else strListLe as bs

/-- Python string comparison used by `sorted`. -/
def pyStrLe (a b : String) : Bool :=
  strListLe a.data b.data

/-- The value of a decimal digit list, if every character is a digit
(and the list is non-empty). -/
def pyDigitsVal (cs : List Char) : Option Nat :=
  if cs.isEmpty then Option.none
  else if cs.all Char.isDigit then
    some (cs.foldl (fun a c => a * 10 + (c.toNat - 48)) 0)
  else Option.none

/-- Python `int(s)` (optional sign, decimal digits, surrounding
whitespace), `Option.none` on `ValueError`. -/
def pyParseInt (s : String) : Option Int :=
  match (pyStrip s).data with
  | [] => Option.none
  | c :: rest =>
    if c = Char.ofNat 45 then (pyDigitsVal rest).map (fun n => -(n : Int))
    else if c = Char.ofNat 43 then (pyDigitsVal rest).map (fun n => (n : Int))
    else (pyDigitsVal (c :: rest)).map (fun n => (n : Int))

/-- Python `a or b` for an optionally-present string value:
`None` and the empty string are falsy. -/
def strOr (a : Option String) (b : String) : String :=
  match a with
  | some s => if s = "" then b else s
  | none => b

/-- Substring test (Python `needle in hay`), over character lists. -/
def strContains (hay needle : String) : Bool :=
  hay.data.tails.any (fun t => needle.data.isPrefixOf t)

/-- Word-boundary containment: `needle` occurs in `hay` delimited on both
sides by a non-alphanumeric character or the string edge.  This is the
reading of the spec phrase "contains a block-listed software identifier as
a word"; the source performs a plain substring test instead. -/
def strContainsWord (hay needle : String) : Bool :=
  let h := hay.data
  let n := needle.data
  (List.range (h.length + 1)).any fun i =>
    n.isPrefixOf (h.drop i) &&
    (i = 0 || !(((h.take i).getLastD ' ').isAlphanum)) &&
    (((h.drop i).drop n.length).headD ' ').isAlphanum = false

/-! ## Plan and step dictionaries

A plan step as a Python dict; each field is `none` when the key is absent.
External field names (`scientific_intent`, `compute_intensity`,
`requires_confirmation`, `fallback_strategy`) and internal ones coexist. -/

structure StepDict where
  step_id : Option Int
  tool_name : Option String
  scientific_intent : Option String
  intent : Option String
  compute_intensity : Option String
  compute_cost : Option String
  requires_confirmation : Option Bool
  requires_human_confirm : Option Bool
  fallback_strategy : Option String
  fallback_logic : Option String
  status : Option String
  deriving Repr, DecidableEq

/-- A plan as a Python dict (keys produced or read by the planner). -/
structure PlanDict where
  plan_id : Option String
  status : Option String
  refusal_reason : Option String
  strategy_name : Option String
  fidelity_level : Option String
  execution_graph : Option (List StepDict)
  steps : Option (List StepDict)
  deriving Repr, DecidableEq

/-! ## Normalization (`_normalize_step` / `_normalize_plan`) -/

/-- The `intensity`/`cost` computation of `_normalize_step` (lines 57-63):
uppercase the first truthy of `compute_intensity`, `compute_cost`,
`"MEDIUM"` and map it to `Low`/`High`/`Medium`. -/
def computeCost (ci cc : Option String) : String :=
  let intensity := pyUpper (strOr ci (strOr cc "MEDIUM"))
  if intensity = "LOW" then "Low"
  else if intensity = "HIGH" then "High"
  else "Medium"

/-- `_normalize_step`: map execution_graph schema to the internal steps
schema (research_planner.py lines 55-72). -/
def normalizeStep (step : StepDict) : StepDict :=
  let cost := computeCost step.compute_intensity step.compute_cost
  { step_id := step.step_id
    tool_name := some (step.tool_name.getD "")
    scientific_intent := none
    intent := some (strOr step.scientific_intent (step.intent.getD ""))
    compute_intensity := none
    compute_cost := some cost
    requires_confirmation := none
    requires_human_confirm :=
      some (step.requires_confirmation.getD
        (step.requires_human_confirm.getD false))
    fallback_strategy := none
    fallback_logic := some (strOr step.fallback_strategy
      (step.fallback_logic.getD "None"))
    status := some (step.status.getD "pending") }

/-- Python truthiness of an optionally-present list (absent or empty is
falsy), used by the `or` chain in `_normalize_plan`. -/
def listOrElse {α : Type} (a : Option (List α)) (b : List α) : List α :=
  match a with
  | some l => if l.isEmpty then b else l
  | none => b

/-- `s.setdefault("status", "pending")` applied to a step dict. -/
def stepSetdefaultStatus (s : StepDict) : StepDict :=
  { s with status := some (s.status.getD "pending") }

/-- The steps list produced by `_normalize_plan` from the chosen graph:
normalize each step, cap at `maxSteps`, default each status (the
`setdefault` loop of lines 79-80). -/
def normalizeGraphList (g : List StepDict) (maxSteps : Nat) :
    List StepDict :=
  ((g.map normalizeStep).take maxSteps).map stepSetdefaultStatus

/-- `_normalize_plan`: pick `execution_graph` or `steps` (first truthy),
normalize each step, cap the length, default each status
(research_planner.py lines 75-81). -/
def normalizePlan (plan : PlanDict) (maxSteps : Nat) : PlanDict :=
  { plan with steps := some (normalizeGraphList
      (listOrElse plan.execution_graph (listOrElse plan.steps []))
      maxSteps) }

/-! ## CRP policy watchdog (`_validate_plan_safety`) -/

/-- `INTERNAL_CRP_CONTEXT["License_Registry"]["Block_List"]`. -/
def crpBlockList : List String := ["VASP", "Gaussian", "CASTEP", "Wien2k"]

/-- `INTERNAL_CRP_CONTEXT["Tool_Stack"]["Preferred_DFT"]`. -/
def crpPreferredDFT : String := "ABACUS"

/-- `INTERNAL_CRP_CONTEXT["Tool_Stack"]["Preferred_MLP"]`. -/
def crpPreferredMLP : String := "DPA"

/-- The single-quote character used by the refusal message. -/
def squote : String := String.singleton (Char.ofNat 39)

/-- Python `f"{x}"` for an optional integer (`None` renders as "None"). -/
def pyFormatOptInt (x : Option Int) : String :=
  match x with
  | some i => toString i
  | none => "None"

/-- The step text scanned by the watchdog:
`(step.get("tool_name", "") + " " + step.get("intent", "")).lower()`. -/
def stepText (step : StepDict) : String :=
  pyLower (step.tool_name.getD "" ++ " " ++ step.intent.getD "")

/-- First block-listed identifier whose lowercase form is a substring of
the step text, in block-list order (the inner loop of
`_validate_plan_safety`). -/
def stepBlockedHit (step : StepDict) : Option String :=
  crpBlockList.find? fun sw => strContains (stepText step) (pyLower sw)

/-- The first step (in order) whose text has a block-list substring hit
(the outer loop of `_validate_plan_safety`). -/
def planBlockedStep (plan : PlanDict) : Option StepDict :=
  (plan.steps.getD []).find? fun st => (stepBlockedHit st).isSome

/-- Whether the watchdog's substring scan hits some step of the plan. -/
def planHasBlockedSub (plan : PlanDict) : Bool :=
  (planBlockedStep plan).isSome

/-- `_validate_plan_safety` (research_planner.py lines 227-245): return the
plan unchanged if already refused; otherwise scan steps in order and on the
first block-list substring hit return a fresh REFUSED plan. -/
def validatePlanSafety (plan : PlanDict) : PlanDict :=
  if plan.status = some "REFUSED" then plan
  else
    match planBlockedStep plan with
    | none => plan
    | some st =>
      let sw := (stepBlockedHit st).getD ""
      let msg := "CRP violation: blocked software " ++ squote ++ sw ++ squote
        ++ " in step " ++ pyFormatOptInt st.step_id ++ "."
      { plan_id := plan.plan_id
        status := some "REFUSED"
        refusal_reason := some (msg ++ " Use " ++ crpPreferredDFT ++ " or "
          ++ crpPreferredMLP ++ ".")
        strategy_name := plan.strategy_name
        fidelity_level := none
        execution_graph := none
        steps := some (plan.steps.getD []) }

/-- Spec-side predicate for claim C1: some step of the plan mentions a
block-listed identifier *as a word* (case-insensitively). -/
def planHasBlockedWord (plan : PlanDict) : Bool :=
  (plan.steps.getD []).any fun st =>
    crpBlockList.any fun sw => strContainsWord (stepText st) (pyLower sw)

/-! ## Plan execution loop (`ResearchPlanner.run`, lines 354-379)

The per-step loop: skip `done` steps, gate high-cost steps on a human
`y/n` answer, otherwise run the DirectSolver and record history.  Directory
creation and `research_state.json` persistence are filesystem effects with
no bearing on step statuses and are elided. -/

/-- A `history` entry appended by the execution loop. -/
inductive HistEntry where
  | ok (step : Int) (tool_name : String) (intent : String)
      (result_summary : String)
  | err (step : Int) (error : String)
  deriving Repr, DecidableEq

/-- Result of running the execution loop: final step dicts, the history
list, the 0-based indexes of steps for which the solver was invoked, and
the indexes at which the human was prompted with the y/n gate. -/
structure ExecOutcome where
  steps : List StepDict
  history : List HistEntry
  solverCalls : List Nat
  prompts : List Nat
  deriving Repr, DecidableEq

/-- Whether a step hits the human gate:
`step.get("requires_human_confirm") or step.get("compute_cost") == "High"`. -/
def stepNeedsConfirm (step : StepDict) : Bool :=
  step.requires_human_confirm.getD false || step.compute_cost = some "High"

/-- One solver invocation for step index `i`: on success the step is marked
`done` and an ok history entry appended; on exception an error entry is
appended and the status is left unchanged. -/
def execRunSolver (solve : Nat → Except String String) (i : Nat)
    (step : StepDict) : StepDict × HistEntry :=
  let stepId := step.step_id.getD 0
  match solve i with
  | Except.ok r =>
    ({ step with status := some "done" },
      HistEntry.ok stepId (step.tool_name.getD "")
        (pyTake 200 (step.intent.getD "")) (pyTake 200 r))
  | Except.error e => (step, HistEntry.err stepId e)

/-- The execution loop over the remaining steps, starting at index `i`;
`ask i` is the human answer to the gate prompt of step `i`. -/
def execStepsFrom (ask : Nat → String) (solve : Nat → Except String String) :
    Nat → List StepDict → ExecOutcome
  | _, [] => ⟨[], [], [], []⟩
  | i, step :: rest =>
    if step.status = some "done" then
      let r := execStepsFrom ask solve (i + 1) rest
      ⟨step :: r.steps, r.history, r.solverCalls, r.prompts⟩
    else if stepNeedsConfirm step && (pyLower (pyStrip (ask i)) != "y") then
      let r := execStepsFrom ask solve (i + 1) rest
      ⟨step :: r.steps, r.history, r.solverCalls, i :: r.prompts⟩
    else
      let (st, h) := execRunSolver solve i step
      let r := execStepsFrom ask solve (i + 1) rest
      ⟨st :: r.steps, h :: r.history, i :: r.solverCalls,
        if stepNeedsConfirm step then i :: r.prompts else r.prompts⟩

/-- Entry point of the execution loop (index 0). -/
def execSteps (ask : Nat → String) (solve : Nat → Except String String)
    (steps : List StepDict) : ExecOutcome :=
  execStepsFrom ask solve 0 steps

/-! ## Resilient calculation loop (`ResilientCalcExp.run`, lines 44-99)

The monitor/diagnose/fix/retry loop after a job id has been extracted.
`_check_job_status`, `_diagnose_error`, `_apply_fix_and_resubmit` and
`_get_results` are oracles (they call tools / the agent); they are keyed by
the loop iteration index so arbitrary sequences of answers are
representable. -/

/-- Oracle answers for the resilient loop's external calls. -/
structure CalcOracle where
  checkStatus : Nat → String → String
  diagnoseError : Nat → String → String
  applyFixResubmit : Nat → String → Option String
  getResults : String → String

/-- Observable events of the resilient loop. -/
inductive CalcEvent where
  | diagnosed (job : String) (code : String)
  | fixApplied (job : String)
  | slept
  deriving Repr, DecidableEq

/-- The dict returned by `ResilientCalcExp.run` (monitor phase); a field is
`none` when the corresponding key is absent. -/
structure CalcReturn where
  status : String
  job_id : Option String
  retries : Option Nat
  message : Option String
  results : Option String
  deriving Repr, DecidableEq

/-- The final `return` after the while loop (also reached via `break`). -/
def calcFailedAfter (job : String) (retries : Nat) : CalcReturn :=
  { status := "failed"
    job_id := some job
    retries := some retries
    message := some ("Calculation failed after " ++ toString retries
      ++ " retries.")
    results := none }

/-- The abort return for an `Unknown` status poll. -/
def calcUnknownReturn (job : String) (retries : Nat) : CalcReturn :=
  { status := "failed"
    job_id := some job
    retries := some retries
    message := some ("Job status unknown. Implement _check_job_status to "
      ++ "return Done/Failed/Error.")
    results := none }

/-- One pass of the `while retries < max_retries` loop, with `fuel` bounding
the number of iterations (the Python loop can spin forever on a status such
as "Running"); `none` means the fuel ran out, a modelling artifact no claim
relies on.  `i` is the iteration index, `retries` the retry counter,
`job` the current job id. -/
def resilientLoop (o : CalcOracle) (handlers : List (String × List String))
    (maxRetries : Nat) :
    Nat → Nat → Nat → String → List CalcEvent × Option CalcReturn
  | 0, _, _, _ => ([], none)
  | Nat.succ fuel, i, retries, job =>
    if retries < maxRetries then
      let status := o.checkStatus i job
      if status = "Done" || status = "Success" || status = "Finished" then
        ([], some ⟨status, some job, none, none, some (o.getResults job)⟩)
      else if status = "Unknown" then
        ([], some (calcUnknownReturn job retries))
      else if status = "Failed" || status = "Error"
          || status = "Cancelled" then
        let code := o.diagnoseError i job
        let diagEv := CalcEvent.diagnosed job code
        match handlers.lookup code with
        | none => ([diagEv], some (calcFailedAfter job retries))
        | some acts =>
          if acts.isEmpty then ([diagEv], some (calcFailedAfter job retries))
          else
            let fixEv := CalcEvent.fixApplied job
            match o.applyFixResubmit i job with
            | some newJob =>
              if newJob = "" then
                ([diagEv, fixEv], some (calcFailedAfter job retries))
              else
                let r := resilientLoop o handlers maxRetries fuel (i + 1)
                  (retries + 1) newJob
                (diagEv :: fixEv :: CalcEvent.slept :: r.1, r.2)
            | none => ([diagEv, fixEv], some (calcFailedAfter job retries))
      else
        let r := resilientLoop o handlers maxRetries fuel (i + 1) retries job
        (CalcEvent.slept :: r.1, r.2)
    else
      ([], some (calcFailedAfter job retries))

/-! ## MCP synchronous call bridge (`MCPTool._call_mcp_tool_sync`,
mcp.py lines 148-178)

The injected long-lived loop is modelled by its observable predicates; the
in-loop coroutine by its completion time in seconds and its outcome. -/

/-- Observable state of the injected MCP event loop. -/
structure McpLoop where
  injected : Bool
  closed : Bool
  running : Bool
  deriving Repr, DecidableEq

/-- Behaviour of the `call_tool` coroutine: seconds until it completes, and
whether it returns a value or raises. -/
structure CoroBehavior where
  duration : Nat
  outcome : Except String String
  deriving Repr

/-- Result of the synchronous call: the returned value, or the message of
the raised `ToolError`. -/
inductive McpCallResult where
  | ok (v : String)
  | toolError (msg : String)
  deriving Repr, DecidableEq

/-- The `ToolError` message raised on submission-deadline expiry. -/
def mcpTimeoutMsg : String := "MCP tool call timed out after 60 seconds"

/-- `_call_mcp_tool_sync`: no injected loop or a closed loop raises; a loop
that is not running executes the coroutine via `run_until_complete` with no
deadline; a running loop submits via `run_coroutine_threadsafe` and waits
on the future with `timeout=60`. -/
def callMcpToolSync (loop : McpLoop) (coro : CoroBehavior) : McpCallResult :=
  if !loop.injected then
    McpCallResult.toolError ("MCP loop not injected into MCPTool. Please "
      ++ "set mcp_tool._mcp_loop = <persistent_event_loop> when creating "
      ++ "tools.")
  else if loop.closed then
    McpCallResult.toolError "MCP loop is closed; cannot call MCP tool"
  else if !loop.running then
    match coro.outcome with
    | Except.ok v => McpCallResult.ok v
    | Except.error e =>
      McpCallResult.toolError ("Failed to call MCP tool: " ++ e)
  else if 60 < coro.duration then McpCallResult.toolError mcpTimeoutMsg
  else
    match coro.outcome with
    | Except.ok v => McpCallResult.ok v
    | Except.error e =>
      McpCallResult.toolError ("Failed to call MCP tool: " ++ e)

/-! ## MCP tool manager (`MCPToolManager`, mcp_manager.py)

`add_server` / `remove_server` with their per-server bookkeeping tables.
The tool registry class (`ToolRegistry`, evomaster/agent/tools/base.py) is
not part of the sources; it is modelled from the spec.  Both operations
are modelled as invoked on the manager's event loop (the runtime check at
mcp_manager.py lines 158-162 / 200-201), which is what the claims assume.

The cooperative scheduling of the runner task follows the spec's
concurrency model (one loop, suspension only at transport I/O and signal
waits): `add_server` awaits `ready_evt`, the runner executes up to its next
suspension point, and whichever continuation was scheduled first runs
first. -/

/-- Modelled from the spec: the flat tool registry
(`ToolRegistry.register` / `ToolRegistry.unregister`), whose source file
`evomaster/agent/tools/base.py` is absent.  Spec 4.E: a flat mapping from
qualified name to callable, registration idempotent per name; only the set
of registered names matters here. -/
def regRegister (r : List String) (n : String) : List String :=
  if n ∈ r then r else r ++ [n]

/-- Modelled from the spec: `ToolRegistry.unregister` removes the named
tool from the flat mapping. -/
def regUnregister (r : List String) (n : String) : List String :=
  r.erase n

/-- Python-dict deduplication: keep the first occurrence of each element,
in order. -/
def pyDedup (l : List String) : List String :=
  l.reverse.dedup.reverse

/-- Behaviour of one server's connection as seen by the supervisor runner:
the outcome of opening the connection, the outcome of `list_tools`
(original tool names), and whether closing the connection suspends
(transport I/O is a suspension point per spec section 5; the runner's
outcome does not depend on it, because the ready event is only set after
the scoped connection has finished unwinding). -/
structure ServerBehavior where
  openOk : Except String Unit
  listTools : Except String (List String)
  closeSuspends : Bool

/-- The manager's mutable state: the five per-server tables, the optional
bound registry (name set), the per-server include-only filter, and the set
of runner tasks that have terminated with an exception. -/
structure ManagerState where
  loopSet : Bool
  serverTasks : List String
  serverStop : List String
  serverReady : List String
  connections : List String
  toolsByServer : List (String × List String)
  registry : Option (List String)
  includeOnly : List (String × List String)
  failedTasks : List String
  deriving Repr, DecidableEq

/-- `_build_tools`: apply the optional include-only filter, then produce
the prefixed tool names (`server_name + "_" + original`); a dict keyed by
prefixed name keeps the first occurrence of each. -/
def buildToolNames (st : ManagerState) (name : String)
    (toolNames : List String) : List String :=
  let filtered := match st.includeOnly.lookup name with
    | some incl => toolNames.filter (fun t => incl.contains t)
    | Option.none => toolNames
  pyDedup (filtered.map (fun t => name ++ "_" ++ t))

/-- Pop all five per-server tables for `name` (the cleanup block of
`add_server` lines 172-177 and of `remove_server` lines 221-228). -/
def purgeServer (st : ManagerState) (name : String) : ManagerState :=
  { st with
    serverTasks := st.serverTasks.erase name
    serverStop := st.serverStop.erase name
    serverReady := st.serverReady.erase name
    connections := st.connections.erase name
    toolsByServer := st.toolsByServer.eraseP (fun p => p.1 = name)
    failedTasks := st.failedTasks.erase name }

/-- `add_server` (mcp_manager.py lines 110-179) together with its runner
task, deterministically scheduled: reject duplicates and a missing loop;
record the stop/ready events and the task; run the runner.  On any failure
before `Ready` (connection open raises, or `list_tools` raises), the
exception first unwinds the `async with` scope — the connection close may
suspend on transport I/O, but `ready_evt` is not yet set, so `add_server`
stays parked on `ready_evt.wait()` — and only then does the `except` block
set the ready event and re-raise, completing the task in the same loop
step.  The woken `add_server` therefore always sees `task.done()`, purges
the per-server tables (lines 172-177), and raises the captured error.  On
success the tools are built, projected into the bound registry, and the
runner parks on the stop signal. -/
def addServer (st : ManagerState) (name : String) (b : ServerBehavior) :
    Except String Unit × ManagerState :=
  if name ∈ st.serverTasks then
    (Except.error ("MCP server " ++ squote ++ name ++ squote
      ++ " already exists"), st)
  else if !st.loopSet then
    (Except.error ("MCPToolManager.loop is None. Set a long-running event "
      ++ "loop before add_server()."), st)
  else
    let st1 := { st with
      serverStop := name :: st.serverStop
      serverReady := name :: st.serverReady
      serverTasks := name :: st.serverTasks }
    match b.openOk with
    | Except.error e => (Except.error e, purgeServer st1 name)
    | Except.ok _ =>
      let st2 := { st1 with connections := name :: st1.connections }
      match b.listTools with
      | Except.error e => (Except.error e, purgeServer st2 name)
      | Except.ok toolNames =>
        let named := buildToolNames st name toolNames
        let st3 := { st2 with
          toolsByServer := (name, named) :: st2.toolsByServer
          registry := match st2.registry with
            | some r => some (named.foldl regRegister r)
            | Option.none => Option.none }
        (Except.ok (), st3)

/-- `remove_server` (mcp_manager.py lines 199-230): reject unknown names;
unregister the server's tools from the bound registry; signal stop and
await the runner (a runner that already failed re-raises its exception at
`await task`, before the tables are popped); then pop all tables. -/
def removeServer (st : ManagerState) (name : String) :
    Except String Unit × ManagerState :=
  if name ∉ st.serverTasks then
    (Except.error ("MCP server " ++ squote ++ name ++ squote
      ++ " not found"), st)
  else
    let st1 := match st.registry, st.toolsByServer.lookup name with
      | some r, some tools =>
        { st with registry := some (tools.foldl regUnregister r) }
      | _, _ => st
    if name ∈ st1.failedTasks then
      (Except.error ("MCP server runner failed for " ++ squote ++ name
        ++ squote), st1)
    else
      (Except.ok (), purgeServer st1 name)

/-! ## Python values and dicts (for the path adaptor) -/

/-- A Python value as passed through tool arguments and config dicts.  An
object is an ordered association list (insertion-ordered dict). -/
inductive PyVal where
  | str (s : String)
  | int (i : Int)
  | bool (b : Bool)
  | list (xs : List PyVal)
  | obj (fields : List (String × PyVal))
  | pynone

/-- Python truthiness of a value. -/
def pyTruthy : PyVal → Bool
  | PyVal.str s => s ≠ ""
  | PyVal.int i => i ≠ 0
  | PyVal.bool b => b
  | PyVal.list xs => !xs.isEmpty
  | PyVal.obj fs => !fs.isEmpty
  | PyVal.pynone => false

/-- `d.get(k)` on an ordered dict. -/
def objGet (fs : List (String × PyVal)) (k : String) : Option PyVal :=
  fs.lookup k

/-- `d[k] = v` on an ordered dict: replace the entry in place if the key
exists, otherwise append. -/
def objSet : List (String × PyVal) → String → PyVal → List (String × PyVal)
  | [], k, v => [(k, v)]
  | (k2, w) :: l, k, v =>
    if k2 = k then (k, v) :: l else (k2, w) :: objSet l k v

/-- Python `str(v)`.  Faithful for the scalar values; the rendering of
containers (never exercised by any claim here) is abstracted. -/
def pyStr : PyVal → String
  | PyVal.str s => s
  | PyVal.int i => toString i
  | PyVal.bool b => if b then "True" else "False"
  | PyVal.pynone => "None"
  | PyVal.list _ => "<list repr>"
  | PyVal.obj _ => "<dict repr>"

/-- `(d.get(k) or d.get(k2) or "")` restricted to string values: a falsy
or absent entry falls through (a non-string truthy entry would raise in
Python and is out of scope). -/
def pyStrField (v : Option PyVal) (d : String) : String :=
  match v with
  | some (PyVal.str s) => if s = "" then d else s
  | _ => d

/-! ## Bohrium credentials and storage/executor injection
(src/evomaster/env/bohrium.py) -/

/-- The process environment: variable name to optional value. -/
def Env : Type := String → Option String

/-- Python `int(s)` with the fallback to `-1` on `ValueError`
(`get_bohrium_credentials`). -/
def pyIntOr (s : String) (d : Int) : Int :=
  (pyParseInt s).getD d

/-- Credentials read by `get_bohrium_credentials` (bohrium.py lines
14-29). -/
structure BohriumCred where
  access_key : String
  project_id : Int
  user_id : Int
  deriving Repr, DecidableEq

/-- `get_bohrium_credentials`: `BOHRIUM_ACCESS_KEY` (stripped, default ""),
`BOHRIUM_PROJECT_ID` and `BOHRIUM_USER_ID` as ints with fallback `-1`. -/
def getBohriumCredentials (env : Env) : BohriumCred :=
  { access_key := pyStrip ((env "BOHRIUM_ACCESS_KEY").getD "")
    project_id := pyIntOr ((env "BOHRIUM_PROJECT_ID").getD "-1") (-1)
    user_id := pyIntOr ((env "BOHRIUM_USER_ID").getD "-1") (-1) }

/-- `get_bohrium_storage_config` (bohrium.py lines 32-43): the HTTPS
storage descriptor with the Bohrium plugin credentials. -/
def getBohriumStorageConfig (env : Env) : PyVal :=
  let cred := getBohriumCredentials env
  PyVal.obj [("type", PyVal.str "https"),
    ("plugin", PyVal.obj [("type", PyVal.str "bohrium"),
      ("access_key", PyVal.str cred.access_key),
      ("project_id", PyVal.int cred.project_id),
      ("app_key", PyVal.str "agent")])]

/-- `inject_bohrium_executor` (bohrium.py lines 46-58): deep-copy the
template (copying is the identity on pure values); when its `type` is
`"dispatcher"`, set the credentials under `machine.remote_profile` and
`resources.envs.BOHRIUM_PROJECT_ID` (creating the intermediate dicts via
`setdefault`).  `Option.none` models the `AttributeError` Python raises
when an intermediate key holds a non-dict. -/
def injectBohriumExecutor (env : Env) (tpl : PyVal) : Option PyVal :=
  match tpl with
  | PyVal.obj fs =>
    match objGet fs "type" with
    | some (PyVal.str "dispatcher") =>
      let cred := getBohriumCredentials env
      match (objGet fs "machine").getD (PyVal.obj []) with
      | PyVal.obj mfs =>
        match (objGet mfs "remote_profile").getD (PyVal.obj []) with
        | PyVal.obj rpfs =>
          let rp2 := objSet (objSet (objSet rpfs
            "access_key" (PyVal.str cred.access_key))
            "project_id" (PyVal.int cred.project_id))
            "real_user_id" (PyVal.int cred.user_id)
          let fs2 := objSet fs "machine"
            (PyVal.obj (objSet mfs "remote_profile" (PyVal.obj rp2)))
          match (objGet fs2 "resources").getD (PyVal.obj []) with
          | PyVal.obj rfs =>
            match (objGet rfs "envs").getD (PyVal.obj []) with
            | PyVal.obj efs =>
              some (PyVal.obj (objSet fs2 "resources"
                (PyVal.obj (objSet rfs "envs"
                  (PyVal.obj (objSet efs "BOHRIUM_PROJECT_ID"
                    (PyVal.int cred.project_id)))))))
            | _ => Option.none
          | _ => Option.none
        | _ => Option.none
      | _ => Option.none
    | _ => some tpl
  | _ => some tpl

/-! ## Calculation path adaptor
(src/evomaster/adaptors/calculation/path_adaptor.py) -/

/-- `CALCULATION_PATH_ARGS`: hand-maintained remote tool name to input
file-path argument names (path_adaptor.py lines 19-44). -/
def calculationPathArgs : List (String × List String) :=
  [("get_structure_info", ["structure_path"]),
   ("get_molecule_info", ["molecule_path"]),
   ("build_bulk_structure_by_template", []),
   ("build_bulk_structure_by_wyckoff", []),
   ("make_supercell_structure", ["structure_path"]),
   ("apply_structure_transformation", ["structure_path"]),
   ("build_molecule_structures_from_smiles", []),
   ("add_cell_for_molecules", ["molecule_path"]),
   ("build_surface_slab", ["material_path"]),
   ("build_surface_adsorbate", ["surface_path", "adsorbate_path"]),
   ("build_surface_interface", ["material1_path", "material2_path"]),
   ("make_defect_structure", ["structure_path"]),
   ("make_doped_structure", ["structure_path"]),
   ("make_amorphous_structure", ["molecule_paths"]),
   ("add_hydrogens", ["structure_path"]),
   ("generate_ordered_replicas", ["structure_path"]),
   ("remove_solvents", ["structure_path"]),
   ("optimize_structure", ["input_structure"]),
   ("calculate_phonon", ["input_structure"]),
   ("run_molecular_dynamics", ["initial_structure"]),
   ("calculate_elastic_constants", ["input_structure"]),
   ("run_neb", ["initial_structure", "final_structure"]),
   ("extract_material_data_from_pdf", ["pdf_path"]),
   ("extract_info_from_webpage", [])]

/-- The key hints of `_path_arg_names_from_schema` (line 76). -/
def schemaKeyHints : List String :=
  ["structure_path", "molecule_path", "material_path", "surface_path",
   "adsorbate_path", "input_structure", "initial_structure",
   "final_structure", "pdf_path"]

/-- One property of the schema passes the path heuristic
(`_path_arg_names_from_schema` body, lines 77-89); `_NON_PATH_SCHEMA_KEYS`
is the denylist `{crystal_structure, output_file}`. -/
def schemaPathKey (key : String) (prop : PyVal) : Bool :=
  let kl := pyLower key
  if kl = "crystal_structure" || kl = "output_file" then false
  else if schemaKeyHints.any (fun h => strContains kl h) then true
  else if pyEndsWith kl "_path" || kl = "pdf_path" then true
  else match prop with
    | PyVal.obj pfs =>
      let desc := pyLower (pyStrField (objGet pfs "description")
        (pyStrField (objGet pfs "title") ""))
      strContains desc "input" &&
        (strContains desc "path" || strContains desc "file"
          || strContains desc "url")
    | _ => false

/-- The `properties` dict of an input schema; empty for a falsy or non-dict
schema (lines 73-75). -/
def schemaProps (schema : Option PyVal) : List (String × PyVal) :=
  match schema with
  | some (PyVal.obj sfs) =>
    match objGet sfs "properties" with
    | some (PyVal.obj pfs) => pfs
    | _ => []
  | _ => []

/-- `_path_arg_names_from_schema` (lines 70-90), as a duplicate-free list
(Python returns a set). -/
def pathArgNamesFromSchema (schema : Option PyVal) : List String :=
  pyDedup ((schemaProps schema).filterMap
    (fun p => if schemaPathKey p.1 p.2 then some p.1 else Option.none))

/-- Insertion into a sorted string list. -/
def insertSorted (x : String) : List String → List String
  | [] => [x]
  | y :: ys => if pyStrLe x y then x :: y :: ys else y :: insertSorted x ys

/-- Python `sorted` on strings. -/
def sortStrings (l : List String) : List String :=
  l.foldr insertSorted []

/-- The full path-argument name set for a remote tool: hand table united
with the schema heuristic (resolve_args line 178), sorted as iterated by
the rewrite loop (line 183). -/
def pathArgNamesFor (remoteName : String) (schema : Option PyVal) :
    List String :=
  sortStrings (pyDedup ((calculationPathArgs.lookup remoteName).getD []
    ++ pathArgNamesFromSchema schema))

/-- The scheme of `urllib.parse.urlparse`: the lowercased text before the
first colon when it is a valid scheme (a letter followed by letters,
digits, `+`, `-`, `.`), else empty. -/
def urlScheme (s : String) : String :=
  let pre := s.data.takeWhile (fun c => c ≠ Char.ofNat 58)
  if pre.length = s.data.length then ""
  else
    match pre with
    | [] => ""
    | c :: rest =>
      if c.isAlpha && rest.all (fun d =>
          d.isAlphanum || d = Char.ofNat 43 || d = Char.ofNat 45
            || d = Char.ofNat 46) then
        pyLower (String.mk pre)
      else ""

/-- `_is_local_path` (lines 93-104): a non-empty string that is neither an
`http(s)` URL nor a `local://` URL. -/
def isLocalPath : PyVal → Bool
  | PyVal.str s =>
    if s = "" then false
    else if pyStrip s = "" then false
    else if urlScheme (pyStrip s) = "http"
      || urlScheme (pyStrip s) = "https" then false
    else if pyStartsWith (pyLower (pyStrip s)) "local://" then false
    else true
  | _ => false

/-- The filesystem and object store as oracles: path normalization
(`Path.resolve`), existence and regular-file tests, and
`upload_file_to_oss` keyed by the resolved path. -/
structure FsModel where
  resolvePath : String → String
  pathExists : String → Bool
  pathIsFile : String → Bool
  upload : String → Except String String

/-- `workspace_root / rel` for a relative `rel`. -/
def joinPath (root rel : String) : String :=
  root ++ "/" ++ rel

/-- Python `s.lstrip("/")`. -/
def dropLeadingSlashes (s : String) : String :=
  String.mk (s.toList.dropWhile (fun c => c = Char.ofNat 47))

/-- `_workspace_path_to_local` (lines 107-119): map `/workspace/...` and
relative paths under the workspace root; other absolute paths pass
through. -/
def workspacePathToLocal (fs : FsModel) (value root : String) : String :=
  let v := pyReplaceChar (Char.ofNat 92) (Char.ofNat 47) (pyStrip value)
  if pyStartsWith v "/workspace/" then
    fs.resolvePath (joinPath root (dropLeadingSlashes (pyDrop 11 v)))
  else if pyStartsWith v "/workspace" then
    let rel := dropLeadingSlashes (pyDrop 10 v)
    fs.resolvePath (joinPath root (if rel = "" then "." else rel))
  else if !(pyStartsWith v "/") then fs.resolvePath (joinPath root v)
  else v

/-- `_resolve_one` (lines 122-139): pass non-local values through; map a
local value to a path, require an existing regular file, upload it and
substitute the URL; failures carry the source's messages. -/
def resolveOne (fs : FsModel) (root value : String) : Except String String :=
  if !(isLocalPath (PyVal.str value)) then Except.ok value
  else
    let path := workspacePathToLocal fs value root
    if !(fs.pathExists path) then
      Except.error ("Path argument file not found: " ++ path
        ++ ". For calculation MCP tools, input files must exist in "
        ++ "workspace so they can be uploaded to OSS and passed as URL.")
    else if !(fs.pathIsFile path) then
      Except.error ("Path argument is not a file: " ++ path
        ++ ". Only files can be uploaded to OSS.")
    else
      match fs.upload path with
      | Except.ok url => Except.ok url
      | Except.error _ =>
        Except.error ("Cannot pass local file to calculation MCP: OSS "
          ++ "upload required but failed for " ++ path
          ++ ". Set OSS_ENDPOINT, OSS_BUCKET_NAME, OSS_ACCESS_KEY_ID, "
          ++ "OSS_ACCESS_KEY_SECRET in .env at project root "
          ++ "(run.py loads it).")

/-- `Python remote_name in sync_tools` for a list of values (equality with
a string only holds for string elements). -/
def syncToolsContain (xs : List PyVal) (name : String) : Bool :=
  xs.any (fun v => match v with
    | PyVal.str s => s = name
    | _ => false)

/-- `CalculationPathAdaptor._resolve_executor` (lines 149-160): `pynone`
(Python `None`) when the server has no truthy config, the tool is a sync
tool, or no dict template is configured; otherwise the injected template.
`Option.none` models a Python-level `TypeError`/`AttributeError` (non-dict
config or malformed template). -/
def resolveExecutor (env : Env) (calcExec : List (String × PyVal))
    (serverName remoteName : String) : Option PyVal :=
  match calcExec.lookup serverName with
  | Option.none => some PyVal.pynone
  | some cfg =>
    if !(pyTruthy cfg) then some PyVal.pynone
    else match cfg with
      | PyVal.obj cfs =>
        let syncTools := match objGet cfs "sync_tools" with
          | some (PyVal.list xs) => xs
          | _ => []
        if syncToolsContain syncTools remoteName then some PyVal.pynone
        else match objGet cfs "executor" with
          | some tpl =>
            if !(pyTruthy tpl) then some PyVal.pynone
            else match tpl with
              | PyVal.obj _ => injectBohriumExecutor env tpl
              | _ => some PyVal.pynone
          | Option.none => some PyVal.pynone
      | _ => Option.none

/-- `tool_name` with the server prefix stripped (resolve_args lines
172-174). -/
def remoteNameOf (toolName serverName : String) : String :=
  if serverName ≠ "" && pyStartsWith toolName (serverName ++ "_") then
    pyDrop (serverName.length + 1) toolName
  else toolName

/-- One path argument rewritten by the loop body (lines 186-190): a list
value is rewritten element-wise via `_resolve_one(str(v))`, any other
value via `_resolve_one(str(val))`. -/
def resolveValue (fs : FsModel) (root : String) (v : PyVal) :
    Except String PyVal :=
  match v with
  | PyVal.list xs =>
    (xs.mapM (fun x => resolveOne fs root (pyStr x))).map
      (fun ys => PyVal.list (ys.map PyVal.str))
  | v => (resolveOne fs root (pyStr v)).map PyVal.str

/-- The rewrite loop of `resolve_args` (lines 183-190) over the sorted
path-argument names: keys absent from the dict are skipped; any
`_resolve_one` failure aborts the call. -/
def resolveArgsLoop (fs : FsModel) (root : String) :
    List String → List (String × PyVal) →
    Except String (List (String × PyVal))
  | [], out => Except.ok out
  | k :: ks, out =>
    match objGet out k with
    | Option.none => resolveArgsLoop fs root ks out
    | some v =>
      match resolveValue fs root v with
      | Except.ok w => resolveArgsLoop fs root ks (objSet out k w)
      | Except.error e => Except.error e

/-- `CalculationPathAdaptor.resolve_args` (lines 162-191): copy the args,
inject `executor` and `storage`, and rewrite the path arguments unless the
name set is empty or the workspace path is falsy. -/
def resolveArgs (env : Env) (fs : FsModel)
    (calcExec : List (String × PyVal)) (workspacePath : String)
    (args : List (String × PyVal)) (toolName serverName : String)
    (schema : Option PyVal) : Except String (List (String × PyVal)) :=
  let remote := remoteNameOf toolName serverName
  match resolveExecutor env calcExec serverName remote with
  | Option.none => Except.error "TypeError in executor resolution"
  | some ex =>
    let out := objSet (objSet args "executor" ex) "storage"
      (getBohriumStorageConfig env)
    let pan := pathArgNamesFor remote schema
    if pan.isEmpty || workspacePath = "" then Except.ok out
    else resolveArgsLoop fs (fs.resolvePath workspacePath) pan out

/-! ## Derived predicates used by the claim statements -/

/-- A string that is already an `http://`, `https://` or `local://` URL in
the sense tested by `_is_local_path` (after stripping). -/
def isUrlLikeString (s : String) : Bool :=
  urlScheme (pyStrip s) = "http" || urlScheme (pyStrip s) = "https"
    || pyStartsWith (pyLower (pyStrip s)) "local://"

/-- A path-argument value that is already URL-formed: a URL string, or a
list of URL strings. -/
def pyValIsUrl : PyVal → Bool
  | PyVal.str s => isUrlLikeString s
  | PyVal.list xs => xs.all (fun x => match x with
    | PyVal.str s => isUrlLikeString s
    | _ => false)
  | _ => false

mutual

/-- Whether a value contains dict key `k` anywhere (used to state that no
credential field was injected into an executor template). -/
def pyMentionsKey (k : String) : PyVal → Bool
  | PyVal.obj fs => pyMentionsKeyFields k fs
  | PyVal.list xs => pyMentionsKeyList k xs
  | _ => false

/-- `pyMentionsKey` over list elements. -/
def pyMentionsKeyList (k : String) : List PyVal → Bool
  | [] => false
  | x :: xs => pyMentionsKey k x || pyMentionsKeyList k xs

/-- `pyMentionsKey` over dict fields. -/
def pyMentionsKeyFields (k : String) : List (String × PyVal) → Bool
  | [] => false
  | (k2, v) :: fs => k2 = k || pyMentionsKey k v || pyMentionsKeyFields k fs

end

/-! ## Concrete instances for counterexamples and witnesses -/

/-- A step whose text contains "vasp" only inside the larger word
"evasp" (and no other block-listed identifier at all). -/
def c1SubStep : StepDict :=
  ⟨some 1, some "mat_abacus", none, some "compute evasp baseline", none,
    none, none, none, none, none, some "pending"⟩

/-- A plan whose only step mentions a block-listed identifier as a
substring but not as a word. -/
def c1SubPlan : PlanDict :=
  ⟨some "p1", some "APPROVED", none, some "strategy", some "Production",
    none, some [c1SubStep]⟩

/-- Spec scenario 3: a step that runs VASP outright. -/
def c1WordStep : StepDict :=
  ⟨some 1, some "run_vasp", none, some "run VASP std", none, none, none,
    none, none, none, some "pending"⟩

/-- A plan containing the VASP step of spec scenario 3. -/
def c1WordPlan : PlanDict :=
  ⟨some "p2", some "APPROVED", none, some "strategy", some "Production",
    none, some [c1WordStep]⟩

/-- An environment with Bohrium credentials set. -/
def c2Env : Env := fun k =>
  if k = "BOHRIUM_ACCESS_KEY" then some "AK"
  else if k = "BOHRIUM_PROJECT_ID" then some "7"
  else Option.none

/-- A non-dispatcher executor template. -/
def c2Tpl : PyVal := PyVal.obj [("type", PyVal.str "local")]

/-- A calculation-executors config whose template is not a dispatcher. -/
def c2Cfg : List (String × PyVal) :=
  [("calc", PyVal.obj [("executor", c2Tpl)])]

/-- A trivial filesystem model (never consulted by the closed instances
that use it). -/
def cFs : FsModel :=
  ⟨fun p => p, fun _ => false, fun _ => false,
    fun _ => Except.error "no store"⟩

/-- A filesystem model in which every path exists, is a file, and uploads
to a fixed URL (spec scenario 2). -/
def cFsOk : FsModel :=
  ⟨fun p => p, fun _ => true, fun _ => true,
    fun _ => Except.ok "https://bucket.h/x/ok.cif"⟩

/-- Manager state for the add/remove pair: no servers, a bound registry
that already contains the name "X_a_b" registered by some other server. -/
def c4St : ManagerState :=
  ⟨true, [], [], [], [], [], some ["X_a_b"], [], []⟩

/-- A healthy server behaviour whose single tool is named "a_b" (so its
prefixed name under server "X" collides with the pre-registered name). -/
def c4Behavior : ServerBehavior :=
  ⟨Except.ok (), Except.ok ["a_b"], false⟩

/-- Fresh manager state with a long-running loop and a bound empty
registry. -/
def c5St : ManagerState :=
  ⟨true, [], [], [], [], [], some [], [], []⟩

/-- A server whose connection opens but whose `list_tools` raises, with a
connection close that suspends on transport I/O while unwinding (the
outcome of `add_server` is independent of the suspension). -/
def c5Behavior : ServerBehavior :=
  ⟨Except.ok (), Except.error "boom", true⟩

/-- A pending high-cost step (requires the y/n gate). -/
def c8Step : StepDict :=
  ⟨some 3, some "run_neb", none, some "run the band", none, some "High",
    none, none, none, some "None", some "pending"⟩

/-! ## Claim C9: Unknown status aborts the resilient loop immediately -/

/-- C9.  In the resilient calculation loop, a status poll that returns
`Unknown` makes the engine return the failed result with the explanatory
message at once: no diagnosis or fix event is emitted, no resubmission
happens, and the returned retry counter equals the current one. -/
theorem C9_unknown_aborts (o : CalcOracle)
    (handlers : List (String × List String)) (maxRetries fuel i retries : Nat)
    (job : String) (hlt : retries < maxRetries)
    (hunk : o.checkStatus i job = "Unknown") :
    resilientLoop o handlers maxRetries (fuel + 1) i retries job =
      ([], some (calcUnknownReturn job retries)) := by
  simp [resilientLoop, hlt, hunk]

/-- Witness for C9 at a concrete oracle whose first poll is `Unknown`. -/
theorem C9_unknown_aborts_witness :
    resilientLoop ⟨fun _ _ => "Unknown", fun _ _ => "X", fun _ _ => none,
        fun _ => "r"⟩ [] 3 (0 + 1) 0 0 "J1" =
      ([], some (calcUnknownReturn "J1" 0)) :=
  C9_unknown_aborts _ [] 3 0 0 0 "J1" (by decide) rfl

/-! ## Claim C3: the 60-second deadline of the concurrency bridge -/

/-- C3 counterexample.  On the `run_until_complete` submission path (loop
not running) a coroutine that takes 120 seconds still returns its value:
the caller never receives the Timeout error even though the 60-second
deadline has passed, refuting the claim that the deadline applies on every
submission path. -/
theorem C3_counterexample :
    callMcpToolSync ⟨true, false, false⟩ ⟨120, Except.ok "v"⟩
      = McpCallResult.ok "v" ∧ 60 < 120 :=
  ⟨rfl, by decide⟩

/-- C3 (amended).  With an injected, open loop: when the loop is already
running, the `run_coroutine_threadsafe` path enforces the 60-second
deadline and the caller gets the typed timeout error; when the loop is not
running, the call uses `run_until_complete` and blocks until the coroutine
completes, with no deadline. -/
theorem C3_deadline_only_when_running (loop : McpLoop) (coro : CoroBehavior)
    (hinj : loop.injected = true) (hcl : loop.closed = false) :
    (loop.running = true → 60 < coro.duration →
      callMcpToolSync loop coro = McpCallResult.toolError mcpTimeoutMsg)
    ∧ (loop.running = false →
      callMcpToolSync loop coro = match coro.outcome with
        | Except.ok v => McpCallResult.ok v
        | Except.error e =>
          McpCallResult.toolError ("Failed to call MCP tool: " ++ e)) := by
  constructor
  · intro hrun hdur
    simp [callMcpToolSync, hinj, hcl, hrun, hdur]
  · intro hrun
    simp [callMcpToolSync, hinj, hcl, hrun]

/-- Witness for C3: a 120-second coroutine on a running loop times out. -/
theorem C3_deadline_only_when_running_witness :
    callMcpToolSync ⟨true, false, true⟩ ⟨120, Except.ok "v"⟩
      = McpCallResult.toolError mcpTimeoutMsg :=
  (C3_deadline_only_when_running ⟨true, false, true⟩ ⟨120, Except.ok "v"⟩
    rfl rfl).1 rfl (by decide)

/-! ## Claim C5: failure before Ready purges all per-server state -/

/-- `eraseP` of a key-matching predicate never makes a key appear. -/
theorem lookup_eraseP_none (name : String) :
    ∀ l : List (String × List String), l.lookup name = Option.none →
      (l.eraseP (fun p => p.1 = name)).lookup name = Option.none := by
  intro l
  induction l with
  | nil => intro _; rfl
  | cons p l ih =>
    obtain ⟨k, v⟩ := p
    intro h
    by_cases hk : name = k
    · have hb : (name == k) = true := beq_iff_eq.mpr hk
      simp only [List.lookup, hb] at h
      exact absurd h (by simp)
    · have hb : (name == k) = false := beq_eq_false_iff_ne.mpr hk
      rw [List.lookup, hb] at h
      have hp : (decide (k = name)) = false := by
        simp
        exact fun e => hk e.symm
      rw [List.eraseP_cons, hp]
      simp only [List.lookup, hb]
      exact ih h

/-- C5.  If the supervisor runner fails before reaching Ready — the
connection open raises, or `list_tools` raises (whether or not the
connection close suspends while unwinding) — then `add_server` raises
exactly the captured error, and afterwards no per-server state remains for
that name: it is absent from the task table, the stop and ready signal
tables, the connections map, and the tools-by-server map. -/
theorem C5_failure_before_ready_purges (st : ManagerState) (name : String)
    (b : ServerBehavior) (e : String)
    (hT : name ∉ st.serverTasks) (hSt : name ∉ st.serverStop)
    (hR : name ∉ st.serverReady) (hC : name ∉ st.connections)
    (hTB : st.toolsByServer.lookup name = Option.none)
    (hloop : st.loopSet = true)
    (hfail : b.openOk = Except.error e
      ∨ (b.openOk = Except.ok ()
          ∧ b.listTools = Except.error e)) :
    (addServer st name b).1 = Except.error e
    ∧ name ∉ (addServer st name b).2.serverTasks
    ∧ name ∉ (addServer st name b).2.serverStop
    ∧ name ∉ (addServer st name b).2.serverReady
    ∧ name ∉ (addServer st name b).2.connections
    ∧ (addServer st name b).2.toolsByServer.lookup name = Option.none := by
  have hloopb : (!st.loopSet) = false := by rw [hloop]; rfl
  rcases hfail with hopen | ⟨hopen, hlist⟩
  · simp only [addServer, if_neg hT, hloopb, Bool.false_eq_true, if_false,
      hopen, purgeServer]
    refine ⟨trivial, ?_, ?_, ?_, ?_, ?_⟩
    · rw [List.erase_cons_head]; exact hT
    · rw [List.erase_cons_head]; exact hSt
    · rw [List.erase_cons_head]; exact hR
    · rw [List.erase_of_not_mem hC]; exact hC
    · exact lookup_eraseP_none name _ hTB
  · simp only [addServer, if_neg hT, hloopb, Bool.false_eq_true, if_false,
      hopen, hlist, purgeServer]
    refine ⟨trivial, ?_, ?_, ?_, ?_, ?_⟩
    · rw [List.erase_cons_head]; exact hT
    · rw [List.erase_cons_head]; exact hSt
    · rw [List.erase_cons_head]; exact hR
    · rw [List.erase_cons_head]; exact hC
    · exact lookup_eraseP_none name _ hTB

/-- Witness for C5: a server whose `list_tools` raises "boom" while the
connection close suspends — `add_server` still raises "boom" and the
connections map ends without the name. -/
theorem C5_failure_before_ready_purges_witness :
    (addServer c5St "s" c5Behavior).1 = Except.error "boom"
    ∧ "s" ∉ (addServer c5St "s" c5Behavior).2.connections :=
  let h := C5_failure_before_ready_purges c5St "s" c5Behavior "boom"
    (by decide) (by decide) (by decide) (by decide) rfl rfl
    (Or.inr ⟨rfl, rfl⟩)
  ⟨h.1, h.2.2.2.2.1⟩

/-! ## Claim C8: the high-cost gate and the Skipped status -/

/-- C8 counterexample.  A pending high-cost step answered `n`: the human
is prompted and the solver is not invoked, but the step is carried over
with its status still `pending` — it is never set to `Skipped`. -/
theorem C8_counterexample :
    (execSteps (fun _ => "n") (fun _ => Except.ok "res") [c8Step]).steps
      = [c8Step]
    ∧ c8Step.status = some "pending"
    ∧ (execSteps (fun _ => "n")
        (fun _ => Except.ok "res") [c8Step]).solverCalls = []
    ∧ (execSteps (fun _ => "n")
        (fun _ => Except.ok "res") [c8Step]).prompts = [0]
    ∧ stepNeedsConfirm c8Step = true := by
  decide

/-- Any step index recorded as a solver invocation by the loop starting at
`i` is at least `i`. -/
theorem execStepsFrom_solverCalls_ge (ask : Nat → String)
    (solve : Nat → Except String String) :
    ∀ (steps : List StepDict) (i j : Nat),
      j ∈ (execStepsFrom ask solve i steps).solverCalls → i ≤ j := by
  intro steps
  induction steps with
  | nil => intro i j h; simp [execStepsFrom] at h
  | cons step rest ih =>
    intro i j h
    simp only [execStepsFrom] at h
    split at h
    · exact Nat.le_of_succ_le (ih (i + 1) j h)
    · split at h
      · exact Nat.le_of_succ_le (ih (i + 1) j h)
      · rcases List.mem_cons.mp h with h1 | h2
        · omega
        · exact Nat.le_of_succ_le (ih (i + 1) j h2)

/-- C8 (amended).  For a non-done step with `requires_human_confirm` set or
`compute_cost = High`, the engine prompts the human; when the stripped,
lowercased answer is not `y`, the step is carried over unchanged (its
status is not modified — in particular it is not set to `Skipped`) and the
DirectSolver is not invoked for that step. -/
theorem C8_gate_skips_without_marking (ask : Nat → String)
    (solve : Nat → Except String String) (i : Nat) (step : StepDict)
    (rest : List StepDict) (hnd : ¬step.status = some "done")
    (hgate : stepNeedsConfirm step = true)
    (hans : ¬pyLower (pyStrip (ask i)) = "y") :
    (execStepsFrom ask solve i (step :: rest)).steps.head? = some step
    ∧ i ∈ (execStepsFrom ask solve i (step :: rest)).prompts
    ∧ i ∉ (execStepsFrom ask solve i (step :: rest)).solverCalls := by
  have hne : (pyLower (pyStrip (ask i)) != "y") = true := by
    simpa using hans
  refine ⟨?_, ?_, ?_⟩ <;>
    simp only [execStepsFrom, if_neg hnd, hgate, hne, Bool.and_self,
      if_pos trivial, Bool.true_and, if_true]
  · rfl
  · exact List.mem_cons_self _ _
  · intro hmem
    have := execStepsFrom_solverCalls_ge ask solve rest (i + 1) i hmem
    omega

/-- Witness for C8 at the concrete high-cost step answered `n`. -/
theorem C8_gate_skips_without_marking_witness :
    (execStepsFrom (fun _ => "n") (fun _ => Except.ok "res") 0
      [c8Step]).steps.head? = some c8Step :=
  (C8_gate_skips_without_marking (fun _ => "n") (fun _ => Except.ok "res")
    0 c8Step [] (by decide) (by decide) (by decide)).1

/-! ## Claim C1: the CRP policy watchdog -/

/-- If a string decomposes as `pre ++ c ++ post`, it contains `c` as a
substring. -/
theorem strContains_of_parts (s c : String) (pre post : List Char)
    (hdata : s.data = pre ++ (c.data ++ post)) : strContains s c = true := by
  simp only [strContains, List.any_eq_true]
  refine ⟨c.data ++ post, ?_, ?_⟩
  · rw [List.mem_tails, hdata]; exact List.suffix_append _ _
  · exact List.isPrefixOf_iff_prefix.mpr (List.prefix_append _ _)

/-- Every watchdog refusal message contains the suggestion
"Use ABACUS or DPA." as a substring, whatever the violation text. -/
theorem refusal_mentions (m : String) :
    strContains (m ++ " Use " ++ crpPreferredDFT ++ " or "
        ++ crpPreferredMLP ++ ".")
      ("Use " ++ crpPreferredDFT ++ " or " ++ crpPreferredMLP ++ ".")
      = true := by
  apply strContains_of_parts _ _ (m.data ++ [' ']) []
  simp only [String.data_append, List.append_assoc, List.append_nil,
    List.cons_append, List.nil_append]

/-- C1 counterexample.  A plan whose only step mentions "vasp" inside the
larger word "evasp": no block-listed identifier occurs as a word, yet the
validator does not return the plan unchanged — it refuses it, because the
source performs a plain case-insensitive substring test. -/
theorem C1_counterexample :
    planHasBlockedWord c1SubPlan = false
    ∧ validatePlanSafety c1SubPlan ≠ c1SubPlan
    ∧ (validatePlanSafety c1SubPlan).status = some "REFUSED" := by
  decide

/-- C1 (amended).  The watchdog tests case-insensitive *substring*
containment (not word containment): a plan already carrying status REFUSED
is returned unchanged; a plan with no block-list substring in any step is
returned unchanged; and a not-yet-refused plan with a block-list substring
in some step is refused with a refusal reason that mentions the preferred
alternatives ("Use ABACUS or DPA."). -/
theorem C1_watchdog_substring_policy (plan : PlanDict) :
    (plan.status = some "REFUSED" → validatePlanSafety plan = plan)
    ∧ (planHasBlockedSub plan = false → validatePlanSafety plan = plan)
    ∧ (¬plan.status = some "REFUSED" → planHasBlockedSub plan = true →
        (validatePlanSafety plan).status = some "REFUSED"
        ∧ ∃ r, (validatePlanSafety plan).refusal_reason = some r
          ∧ strContains r ("Use " ++ crpPreferredDFT ++ " or "
              ++ crpPreferredMLP ++ ".") = true) := by
  refine ⟨?_, ?_, ?_⟩
  · intro h; simp [validatePlanSafety, h]
  · intro h
    have hnone : planBlockedStep plan = none := by
      cases hpb : planBlockedStep plan with
      | none => rfl
      | some st => rw [planHasBlockedSub, hpb] at h; simp at h
    unfold validatePlanSafety
    rw [hnone]
    split <;> rfl
  · intro hs hb
    obtain ⟨st, hst⟩ := Option.isSome_iff_exists.mp
      (by rw [planHasBlockedSub] at hb; exact hb)
    unfold validatePlanSafety
    rw [if_neg hs, hst]
    exact ⟨rfl, ⟨_, rfl, refusal_mentions _⟩⟩

/-- Witness for C1 at spec scenario 3 (a plan running VASP outright). -/
theorem C1_watchdog_substring_policy_witness :
    (validatePlanSafety c1WordPlan).status = some "REFUSED" :=
  ((C1_watchdog_substring_policy c1WordPlan).2.2 (by decide) (by decide)).1

/-! ## Claim C6: plan normalization is idempotent -/

/-- `setdefault("status", "pending")` is a no-op on normalized steps: the
normalizer always writes a status. -/
theorem stepSetdefault_normalizeStep (s : StepDict) :
    stepSetdefaultStatus (normalizeStep s) = normalizeStep s := by
  simp [normalizeStep, stepSetdefaultStatus]

/-- The cost computation returns one of the three internal levels. -/
theorem computeCost_mem (ci cc : Option String) :
    computeCost ci cc = "Low" ∨ computeCost ci cc = "High"
      ∨ computeCost ci cc = "Medium" := by
  unfold computeCost
  dsimp only
  split_ifs <;> simp

/-- Re-running the cost computation on an already-mapped cost is stable. -/
theorem computeCost_stable (ci cc : Option String) :
    computeCost none (some (computeCost ci cc)) = computeCost ci cc := by
  rcases computeCost_mem ci cc with h | h | h <;> rw [h] <;> decide

/-- Step normalization is idempotent. -/
theorem normalizeStep_idem (s : StepDict) :
    normalizeStep (normalizeStep s) = normalizeStep s := by
  unfold normalizeStep
  simp [computeCost_stable, strOr]

/-- The status-defaulting pass is the identity on normalized steps. -/
theorem map_setdefault_normSteps (g : List StepDict) (m : Nat) :
    ((g.map normalizeStep).take m).map stepSetdefaultStatus
      = (g.map normalizeStep).take m := by
  have h : ∀ x ∈ (g.map normalizeStep).take m,
      stepSetdefaultStatus x = id x := by
    intro x hx
    obtain ⟨s, _, rfl⟩ := List.mem_map.mp (List.mem_of_mem_take hx)
    exact stepSetdefault_normalizeStep s
  rw [List.map_congr_left h, List.map_id]

/-- Re-normalizing an already-normalized steps list changes nothing. -/
theorem normalizeGraphList_stable (g : List StepDict) (m : Nat) :
    normalizeGraphList (normalizeGraphList g m) m
      = normalizeGraphList g m := by
  have hsd : normalizeGraphList g m = (g.map normalizeStep).take m :=
    map_setdefault_normSteps g m
  rw [hsd]
  unfold normalizeGraphList
  have h1 : (List.take m (g.map normalizeStep)).map normalizeStep
      = List.take m (g.map normalizeStep) := by
    calc (List.take m (g.map normalizeStep)).map normalizeStep
        = (List.map normalizeStep (List.take m g)).map normalizeStep := by
          congr 1
          rw [List.map_take]
      _ = List.map (normalizeStep ∘ normalizeStep) (List.take m g) := by
          rw [List.map_map]
      _ = List.map normalizeStep (List.take m g) :=
          List.map_congr_left (fun a _ => normalizeStep_idem a)
      _ = List.take m (g.map normalizeStep) := by rw [List.map_take]
  rw [h1, List.take_take, min_self]
  exact map_setdefault_normSteps g m

/-- C6.  Plan normalization is idempotent:
`normalize(normalize(P)) = normalize(P)` for every plan and cap, whether
the steps arrive under `execution_graph` or `steps`, with external or
internal field names. -/
theorem C6_normalize_idempotent (plan : PlanDict) (m : Nat) :
    normalizePlan (normalizePlan plan m) m = normalizePlan plan m := by
  have key : normalizeGraphList (listOrElse plan.execution_graph
      (listOrElse (some (normalizeGraphList
        (listOrElse plan.execution_graph (listOrElse plan.steps []))
        m)) [])) m
      = normalizeGraphList (listOrElse plan.execution_graph
        (listOrElse plan.steps [])) m := by
    have stable2 : ∀ g0 : List StepDict,
        normalizeGraphList (listOrElse (some (normalizeGraphList g0 m)) [])
          m = normalizeGraphList g0 m := by
      intro g0
      by_cases hL : (normalizeGraphList g0 m).isEmpty
      · rw [List.isEmpty_iff] at hL
        rw [hL]
        simp [listOrElse, normalizeGraphList, hL]
      · have : listOrElse (some (normalizeGraphList g0 m)) []
            = normalizeGraphList g0 m := by simp [listOrElse, hL]
        rw [this]
        exact normalizeGraphList_stable g0 m
    cases hEG : plan.execution_graph with
    | none =>
      simp only [listOrElse]
      exact stable2 (listOrElse plan.steps [])
    | some g =>
      by_cases hg : g.isEmpty
      · have hred : ∀ x, listOrElse (some g) x = x := by
          intro x; simp [listOrElse, hg]
        rw [hred, hred]
        exact stable2 (listOrElse plan.steps [])
      · simp [listOrElse, hg]
  exact congrArg (fun x => { plan with steps := some x }) key

end EvoMaster

namespace EvoMaster

/-! ## Claim C4: add_server/remove_server leaves the registry unchanged -/

/-- Python-dict deduplication yields a duplicate-free list. -/
theorem pyDedup_nodup (l : List String) : (pyDedup l).Nodup := by
  rw [pyDedup, List.nodup_reverse]
  exact List.nodup_dedup _

/-- Registering a batch of fresh, pairwise-distinct names appends them. -/
theorem foldl_regRegister (ns : List String) :
    ∀ r : List String, ns.Nodup → (∀ n ∈ ns, n ∉ r) →
      ns.foldl regRegister r = r ++ ns := by
  induction ns with
  | nil => intro r _ _; simp
  | cons n ns ih =>
    intro r hnd hfr
    have hn : n ∉ r := hfr n (List.mem_cons_self n ns)
    have h1 : regRegister r n = r ++ [n] := by simp [regRegister, hn]
    have h2 : ∀ m ∈ ns, m ∉ r ++ [n] := by
      intro m hm
      simp only [List.mem_append, List.mem_singleton]
      rintro (hmr | hmn)
      · exact hfr m (List.mem_cons_of_mem n hm) hmr
      · exact (List.nodup_cons.mp hnd).1 (hmn ▸ hm)
    calc (n :: ns).foldl regRegister r = ns.foldl regRegister (r ++ [n]) :=
          by rw [List.foldl_cons, h1]
      _ = (r ++ [n]) ++ ns := ih (r ++ [n]) (List.nodup_cons.mp hnd).2 h2
      _ = r ++ n :: ns := by simp

/-- Unregistering the same fresh batch restores the original registry. -/
theorem foldl_regUnregister (ns : List String) :
    ∀ r : List String, ns.Nodup → (∀ n ∈ ns, n ∉ r) →
      ns.foldl regUnregister (r ++ ns) = r := by
  induction ns with
  | nil => intro r _ _; simp
  | cons n ns ih =>
    intro r hnd hfr
    have hn : n ∉ r := hfr n (List.mem_cons_self n ns)
    have h1 : regUnregister (r ++ n :: ns) n = r ++ ns := by
      rw [regUnregister, List.erase_append_right _ hn, List.erase_cons_head]
    rw [List.foldl_cons, h1]
    exact ih r (List.nodup_cons.mp hnd).2
      (fun m hm => hfr m (List.mem_cons_of_mem n hm))

/-- C4 counterexample.  A server name "X" not previously present whose
single discovered tool is "a_b": the prefixed name `X_a_b` is already
registered (registrable by a distinct server named "X_a" exposing tool
"b").  Registration is idempotent, but `remove_server` then unregisters
the pre-existing name, so the registry does not return to its prior
value after the pair. -/
theorem C4_counterexample :
    "X" ∉ c4St.serverTasks
    ∧ (addServer c4St "X" c4Behavior).1 = Except.ok ()
    ∧ (removeServer (addServer c4St "X" c4Behavior).2 "X").1 = Except.ok ()
    ∧ (removeServer (addServer c4St "X" c4Behavior).2 "X").2.registry
        ≠ c4St.registry := by
  exact ⟨by decide, rfl, rfl, by decide⟩

/-- C4 (amended).  For a server name not previously present whose
connection opens and lists tools successfully, `add_server` registers
exactly the prefixed tool names it discovers (after the per-server
include-only filter) and `remove_server` unregisters exactly those names;
provided none of those prefixed names was already registered, the
registry after the pair equals the registry before it. -/
theorem C4_add_remove_preserves_registry (st : ManagerState) (name : String)
    (b : ServerBehavior) (names : List String)
    (hfreshT : name ∉ st.serverTasks) (hfreshF : name ∉ st.failedTasks)
    (hloop : st.loopSet = true) (hopen : b.openOk = Except.ok ())
    (hlist : b.listTools = Except.ok names)
    (hfresh : ∀ r, st.registry = some r →
      ∀ n ∈ buildToolNames st name names, n ∉ r) :
    (addServer st name b).1 = Except.ok ()
    ∧ (removeServer (addServer st name b).2 name).1 = Except.ok ()
    ∧ (removeServer (addServer st name b).2 name).2.registry
        = st.registry := by
  have hloopb : (!st.loopSet) = false := by rw [hloop]; rfl
  have hnodup : (buildToolNames st name names).Nodup := by
    unfold buildToolNames; exact pyDedup_nodup _
  have hmem : name ∈ name :: st.serverTasks := List.mem_cons_self name _
  simp only [addServer, if_neg hfreshT, hloopb, Bool.false_eq_true,
    if_false, hopen, hlist]
  cases hreg : st.registry with
  | none =>
    simp [removeServer, purgeServer, hmem, hfreshF, hreg, List.lookup]
  | some r =>
    have hres : (buildToolNames st name names).foldl regUnregister
        ((buildToolNames st name names).foldl regRegister r) = r := by
      rw [foldl_regRegister (buildToolNames st name names) r hnodup
        (hfresh r hreg)]
      exact foldl_regUnregister (buildToolNames st name names) r hnodup
        (hfresh r hreg)
    simp [removeServer, purgeServer, hmem, hfreshF, hreg, hres,
      List.lookup]

/-- Witness for C4: spec scenario 1 — server "s" with tools `a`, `b` added
to a fresh manager with a bound empty registry, then removed. -/
theorem C4_add_remove_preserves_registry_witness :
    (removeServer (addServer ⟨true, [], [], [], [], [], some [], [], []⟩
      "s" ⟨Except.ok (), Except.ok ["a", "b"], false⟩).2 "s").2.registry
      = some [] :=
  (C4_add_remove_preserves_registry
    ⟨true, [], [], [], [], [], some [], [], []⟩ "s"
    ⟨Except.ok (), Except.ok ["a", "b"], false⟩ ["a", "b"]
    (by decide) (by decide) rfl rfl rfl
    (by intro r hr n hn; cases hr; simp)).2.2

/-! ## Dict lemmas for the path adaptor -/

/-- Looking up the key just set returns the new value. -/
theorem objGet_objSet_self (l : List (String × PyVal)) (k : String)
    (v : PyVal) : objGet (objSet l k v) k = some v := by
  induction l with
  | nil => simp [objSet, objGet, List.lookup]
  | cons p l ih =>
    obtain ⟨k2, w⟩ := p
    by_cases hk : k2 = k
    · subst hk; simp [objSet, objGet, List.lookup]
    · have hb : (k == k2) = false :=
        beq_eq_false_iff_ne.mpr (fun e => hk e.symm)
      simpa [objSet, objGet, List.lookup, hk, hb] using ih

/-- Setting one key leaves lookups of other keys unchanged. -/
theorem objGet_objSet_ne (l : List (String × PyVal)) (k k2 : String)
    (v : PyVal) (hne : k2 ≠ k) : objGet (objSet l k v) k2 = objGet l k2 := by
  have hbne : (k2 == k) = false := beq_eq_false_iff_ne.mpr hne
  induction l with
  | nil => simp [objSet, objGet, List.lookup, hbne]
  | cons p l ih =>
    obtain ⟨k3, w⟩ := p
    by_cases hk : k3 = k
    · subst hk
      simp [objSet, objGet, List.lookup, hbne]
    · by_cases he : k2 = k3
      · have hb2 : (k2 == k3) = true := beq_iff_eq.mpr he
        simp [objSet, objGet, List.lookup, hk, hb2]
      · have hb2 : (k2 == k3) = false := beq_eq_false_iff_ne.mpr he
        simpa [objSet, objGet, List.lookup, hk, hb2] using ih

/-- Setting a key to the value it already holds is the identity. -/
theorem objSet_lookup_self (l : List (String × PyVal)) (k : String)
    (v : PyVal) (h : List.lookup k l = some v) : objSet l k v = l := by
  induction l with
  | nil => simp [List.lookup] at h
  | cons p l ih =>
    obtain ⟨k2, w⟩ := p
    by_cases hk : k2 = k
    · subst hk
      simp only [List.lookup, beq_self_eq_true] at h
      injection h with hv
      subst hv
      simp [objSet]
    · have hb : (k == k2) = false :=
        beq_eq_false_iff_ne.mpr (fun e => hk e.symm)
      simp only [List.lookup, hb] at h
      simp [objSet, hk, ih h]

/-- Key presence after `objSet`. -/
theorem objGet_objSet_isSome (l : List (String × PyVal)) (k k2 : String)
    (v : PyVal) :
    (objGet (objSet l k v) k2).isSome
      = ((objGet l k2).isSome || k2 = k) := by
  by_cases he : k2 = k
  · subst he; rw [objGet_objSet_self]; simp
  · rw [objGet_objSet_ne l k k2 v he]; simp [he]

/-- The rewrite loop never changes a key outside the iterated name list. -/
theorem resolveArgsLoop_objGet_not_mem (fs : FsModel) (root : String) :
    ∀ (ks : List String) (out out2 : List (String × PyVal)) (k : String),
      resolveArgsLoop fs root ks out = Except.ok out2 → k ∉ ks →
      objGet out2 k = objGet out k := by
  intro ks
  induction ks with
  | nil =>
    intro out out2 k h _
    rw [resolveArgsLoop] at h
    injection h with h
    rw [h]
  | cons k0 ks ih =>
    intro out out2 k h hk
    have hk0 : k ≠ k0 := fun e => hk (e ▸ List.mem_cons_self k0 ks)
    have hks : k ∉ ks := fun m => hk (List.mem_cons_of_mem k0 m)
    rw [resolveArgsLoop] at h
    split at h
    · exact ih _ _ _ h hks
    · split at h
      · rw [ih _ _ _ h hks]
        exact objGet_objSet_ne out k0 k _ hk0
      · simp at h

/-- The rewrite loop preserves key presence at every key. -/
theorem resolveArgsLoop_isSome (fs : FsModel) (root : String) :
    ∀ (ks : List String) (out out2 : List (String × PyVal)),
      resolveArgsLoop fs root ks out = Except.ok out2 →
      ∀ k, (objGet out2 k).isSome = (objGet out k).isSome := by
  intro ks
  induction ks with
  | nil =>
    intro out out2 h k
    rw [resolveArgsLoop] at h
    injection h with h
    rw [h]
  | cons k0 ks ih =>
    intro out out2 h k
    rw [resolveArgsLoop] at h
    split at h
    · exact ih _ _ h k
    · rename_i v heq
      split at h
      · rename_i w hr
        rw [ih _ _ h k, objGet_objSet_isSome]
        by_cases he : k = k0
        · subst he; rw [heq]; simp
        · simp [he]
      · simp at h

/-! ## Claim C10: the frame property of resolve_args -/

/-- C10.  `resolve_args` returns a dict whose key set is exactly the input
keys plus `executor` and `storage` (no key is removed), and every input
argument other than `executor`, `storage` and the computed path-argument
names keeps exactly its input value. -/
theorem C10_resolveArgs_frame (env : Env) (fs : FsModel)
    (calcExec : List (String × PyVal)) (ws : String)
    (args : List (String × PyVal)) (tool server : String)
    (schema : Option PyVal) (out : List (String × PyVal))
    (h : resolveArgs env fs calcExec ws args tool server schema
      = Except.ok out) :
    (∀ k, (objGet out k).isSome = true ↔
      ((objGet args k).isSome = true ∨ k = "executor" ∨ k = "storage"))
    ∧ (∀ k, k ≠ "executor" → k ≠ "storage" →
        k ∉ pathArgNamesFor (remoteNameOf tool server) schema →
        objGet out k = objGet args k) := by
  unfold resolveArgs at h
  dsimp only at h
  cases hex : resolveExecutor env calcExec server
      (remoteNameOf tool server) with
  | none => rw [hex] at h; simp at h
  | some ex =>
    rw [hex] at h
    dsimp only at h
    split at h
    · injection h with h
      subst h
      constructor
      · intro k
        rw [objGet_objSet_isSome, objGet_objSet_isSome]
        simp [Bool.or_assoc, or_assoc]
      · intro k hke hks hkp
        rw [objGet_objSet_ne _ _ _ _ hks, objGet_objSet_ne _ _ _ _ hke]
    · constructor
      · intro k
        rw [resolveArgsLoop_isSome fs _ _ _ _ h k]
        rw [objGet_objSet_isSome, objGet_objSet_isSome]
        simp [Bool.or_assoc, or_assoc]
      · intro k hke hks hkp
        rw [resolveArgsLoop_objGet_not_mem fs _ _ _ _ k h hkp]
        rw [objGet_objSet_ne _ _ _ _ hks, objGet_objSet_ne _ _ _ _ hke]

/-- Witness for C10 on a concrete call: a non-path argument `x` keeps its
value and the key set gains exactly `executor` and `storage`. -/
theorem C10_resolveArgs_frame_witness :
    objGet [("x", PyVal.int 1), ("executor", PyVal.pynone),
        ("storage", getBohriumStorageConfig c2Env)] "x"
      = objGet [("x", PyVal.int 1)] "x" :=
  (C10_resolveArgs_frame c2Env cFs [] "" [("x", PyVal.int 1)] "t" ""
    none _ rfl).2 "x" (by decide) (by decide) (by decide)

/-! ## Claim C2: executor and storage injection -/

/-- C2 counterexample.  A configured executor template whose `type` is not
`"dispatcher"`: the effective `executor` is the template itself — not
`None`, and with no credential key anywhere in it — even though the
environment provides an access key.  This refutes "otherwise a deep copy
of the configured template with credentials injected". -/
theorem C2_counterexample :
    resolveArgs c2Env cFs c2Cfg "" [] "calc_tool" "calc" none
      = Except.ok [("executor", c2Tpl),
          ("storage", getBohriumStorageConfig c2Env)]
    ∧ c2Tpl ≠ PyVal.pynone
    ∧ pyMentionsKey "access_key" c2Tpl = false
    ∧ (getBohriumCredentials c2Env).access_key = "AK" := by
  refine ⟨rfl, ?_, rfl, rfl⟩
  intro h
  cases h

/-- C2 (amended).  Every successful `resolve_args` call (whose schema does
not itself mark `executor` or `storage` as path arguments) returns
effective arguments with an `executor` key equal to the `_resolve_executor`
result — `None` (pynone) in particular whenever the server has no
configuration — and a `storage` key holding the HTTPS Bohrium descriptor
with credentials read from the process environment.  Credentials are
injected into the executor template only when its `type` is
`"dispatcher"`; any other template is returned as an unmodified deep
copy. -/
theorem C2_executor_storage (env : Env) (fs : FsModel)
    (calcExec : List (String × PyVal)) (ws : String)
    (args : List (String × PyVal)) (tool server : String)
    (schema : Option PyVal) (out : List (String × PyVal))
    (h : resolveArgs env fs calcExec ws args tool server schema
      = Except.ok out)
    (hE : "executor" ∉ pathArgNamesFor (remoteNameOf tool server) schema)
    (hS : "storage" ∉ pathArgNamesFor (remoteNameOf tool server) schema) :
    (∃ ex, resolveExecutor env calcExec server (remoteNameOf tool server)
        = some ex ∧ objGet out "executor" = some ex)
    ∧ objGet out "storage" = some (PyVal.obj [("type", PyVal.str "https"),
        ("plugin", PyVal.obj [("type", PyVal.str "bohrium"),
          ("access_key", PyVal.str (getBohriumCredentials env).access_key),
          ("project_id", PyVal.int (getBohriumCredentials env).project_id),
          ("app_key", PyVal.str "agent")])])
    ∧ (calcExec.lookup server = Option.none →
        objGet out "executor" = some PyVal.pynone)
    ∧ (∀ tfs : List (String × PyVal),
        objGet tfs "type" ≠ some (PyVal.str "dispatcher") →
        injectBohriumExecutor env (PyVal.obj tfs)
          = some (PyVal.obj tfs)) := by
  unfold resolveArgs at h
  dsimp only at h
  cases hex : resolveExecutor env calcExec server
      (remoteNameOf tool server) with
  | none => rw [hex] at h; simp at h
  | some ex =>
    rw [hex] at h
    dsimp only at h
    have hget : objGet out "executor" = some ex
        ∧ objGet out "storage" = some (getBohriumStorageConfig env) := by
      have hne : ("executor" : String) ≠ "storage" := by decide
      split at h
      · injection h with h
        subst h
        exact ⟨by rw [objGet_objSet_ne _ _ _ _ hne, objGet_objSet_self],
          objGet_objSet_self _ _ _⟩
      · rw [resolveArgsLoop_objGet_not_mem fs _ _ _ _ "executor" h hE,
          resolveArgsLoop_objGet_not_mem fs _ _ _ _ "storage" h hS]
        exact ⟨by rw [objGet_objSet_ne _ _ _ _ hne, objGet_objSet_self],
          objGet_objSet_self _ _ _⟩
    refine ⟨⟨ex, rfl, hget.1⟩, hget.2, ?_, ?_⟩
    · intro hnone
      have hpy : resolveExecutor env calcExec server
          (remoteNameOf tool server) = some PyVal.pynone := by
        unfold resolveExecutor
        rw [hnone]
      rw [hex] at hpy
      injection hpy with hpy
      rw [hget.1, hpy]
    · intro tfs htype
      unfold injectBohriumExecutor
      dsimp only
      split
      · rename_i heq
        exact absurd heq htype
      · rfl

/-- Witness for C2 on a concrete call with no executor configuration. -/
theorem C2_executor_storage_witness :
    objGet [("executor", PyVal.pynone),
        ("storage", getBohriumStorageConfig c2Env)] "executor"
      = some PyVal.pynone :=
  ((C2_executor_storage c2Env cFs [] "" [] "t" "" none _ rfl
    (by decide) (by decide)).2.2.1) rfl

/-! ## Claim C7: URL-valued path arguments pass through unchanged -/

/-- A URL-formed string is not a local path. -/
theorem isLocalPath_url (s : String) (h : isUrlLikeString s = true) :
    isLocalPath (PyVal.str s) = false := by
  simp only [isUrlLikeString, Bool.or_eq_true] at h
  by_cases h0 : s = ""
  · simp [isLocalPath, h0]
  · by_cases hs : pyStrip s = ""
    · exfalso
      rcases h with (h1 | h1) | h1 <;> rw [hs] at h1 <;> revert h1 <;>
        decide
    · unfold isLocalPath
      dsimp only
      rw [if_neg h0, if_neg hs]
      by_cases hA : (urlScheme (pyStrip s) = "http"
          || urlScheme (pyStrip s) = "https") = true
      · simp [hA]
      · have hA2 : (urlScheme (pyStrip s) = "http"
            || urlScheme (pyStrip s) = "https") = false := by
          revert hA
          cases urlScheme (pyStrip s) = "http"
            || urlScheme (pyStrip s) = "https" <;> simp
        rcases h with (h1 | h1) | h1
        · exact absurd (by simp [h1]) hA
        · exact absurd (by simp [h1]) hA
        · simp [hA2, h1]

/-- `_resolve_one` passes a URL-formed string through unchanged. -/
theorem resolveOne_url (fs : FsModel) (root s : String)
    (h : isUrlLikeString s = true) : resolveOne fs root s = Except.ok s := by
  rw [resolveOne, isLocalPath_url s h]
  rfl

/-- `mapM` of `_resolve_one` over URL strings is the identity. -/
theorem mapM_resolveOne_url (fs : FsModel) (root : String) :
    ∀ xs : List PyVal,
      xs.all (fun x => match x with
        | PyVal.str s => isUrlLikeString s
        | _ => false) = true →
      xs.mapM (fun x => resolveOne fs root (pyStr x))
          = Except.ok (xs.map pyStr)
        ∧ (xs.map pyStr).map PyVal.str = xs := by
  intro xs
  induction xs with
  | nil => intro _; exact ⟨by rw [List.mapM_nil]; rfl, rfl⟩
  | cons x xs ih =>
    intro hall
    simp only [List.all_cons, Bool.and_eq_true] at hall
    cases x with
    | str s =>
      obtain ⟨hone, hmap⟩ := ih hall.2
      constructor
      · rw [List.mapM_cons, hone]
        have hr : resolveOne fs root (pyStr (PyVal.str s))
            = Except.ok s := resolveOne_url fs root s hall.1
        rw [hr]
        rfl
      · simp only [List.map_cons, hmap]
        rfl
    | int i => simp at hall
    | bool b => simp at hall
    | list l => simp at hall
    | obj o => simp at hall
    | pynone => simp at hall

/-- The loop-body rewrite is the identity on URL-formed values. -/
theorem resolveValue_url (fs : FsModel) (root : String) (v : PyVal)
    (h : pyValIsUrl v = true) : resolveValue fs root v = Except.ok v := by
  cases v with
  | str s =>
    have hr : resolveOne fs root (pyStr (PyVal.str s))
        = Except.ok s := resolveOne_url fs root s (by simpa [pyValIsUrl] using h)
    show Except.map PyVal.str (resolveOne fs root (pyStr (PyVal.str s)))
      = Except.ok (PyVal.str s)
    rw [hr]
    rfl
  | list xs =>
    obtain ⟨hone, hmap⟩ := mapM_resolveOne_url fs root xs
      (by simpa [pyValIsUrl] using h)
    show Except.map (fun ys => PyVal.list (ys.map PyVal.str))
        (xs.mapM (fun x => resolveOne fs root (pyStr x)))
      = Except.ok (PyVal.list xs)
    rw [hone]
    show Except.ok (PyVal.list ((xs.map pyStr).map PyVal.str))
      = Except.ok (PyVal.list xs)
    rw [hmap]
  | int i => simp [pyValIsUrl] at h
  | bool b => simp [pyValIsUrl] at h
  | obj o => simp [pyValIsUrl] at h
  | pynone => simp [pyValIsUrl] at h

/-- The rewrite loop is the identity when every iterated key holds a
URL-formed value. -/
theorem resolveArgsLoop_id (fs : FsModel) (root : String) :
    ∀ (ks : List String) (out : List (String × PyVal)),
      (∀ k ∈ ks, ∀ v, objGet out k = some v → pyValIsUrl v = true) →
      resolveArgsLoop fs root ks out = Except.ok out := by
  intro ks
  induction ks with
  | nil => intro out _; rw [resolveArgsLoop]
  | cons k0 ks ih =>
    intro out hurl
    rw [resolveArgsLoop]
    cases hv : objGet out k0 with
    | none =>
      exact ih out (fun k hk => hurl k (List.mem_cons_of_mem k0 hk))
    | some v =>
      show (match resolveValue fs root v with
        | Except.ok w => resolveArgsLoop fs root ks (objSet out k0 w)
        | Except.error e => Except.error e) = Except.ok out
      rw [resolveValue_url fs root v
        (hurl k0 (List.mem_cons_self k0 ks) v hv)]
      show resolveArgsLoop fs root ks (objSet out k0 v) = Except.ok out
      rw [objSet_lookup_self out k0 v hv]
      exact ih out (fun k hk => hurl k (List.mem_cons_of_mem k0 hk))

/-- C7.  When every path-argument value is already an `http(s)://` or
`local://` URL (and the schema does not mark the injected `executor` /
`storage` keys as path arguments), `resolve_args` succeeds with the same
result for every filesystem and object store — no upload is attempted —
and every path-argument value appears unchanged in the effective
arguments. -/
theorem C7_url_args_unchanged (env : Env)
    (calcExec : List (String × PyVal)) (ws : String)
    (args : List (String × PyVal)) (tool server : String)
    (schema : Option PyVal) (ex : PyVal)
    (hex : resolveExecutor env calcExec server (remoteNameOf tool server)
      = some ex)
    (hE : "executor" ∉ pathArgNamesFor (remoteNameOf tool server) schema)
    (hS : "storage" ∉ pathArgNamesFor (remoteNameOf tool server) schema)
    (hurl : ∀ k ∈ pathArgNamesFor (remoteNameOf tool server) schema,
      ∀ v, objGet args k = some v → pyValIsUrl v = true) :
    ∀ fs : FsModel,
      resolveArgs env fs calcExec ws args tool server schema
        = Except.ok (objSet (objSet args "executor" ex) "storage"
            (getBohriumStorageConfig env))
      ∧ ∀ k ∈ pathArgNamesFor (remoteNameOf tool server) schema,
          objGet (objSet (objSet args "executor" ex) "storage"
              (getBohriumStorageConfig env)) k
            = objGet args k := by
  intro fs
  have hout0 : ∀ k ∈ pathArgNamesFor (remoteNameOf tool server) schema,
      objGet (objSet (objSet args "executor" ex) "storage"
        (getBohriumStorageConfig env)) k = objGet args k := by
    intro k hk
    have hkS : k ≠ "storage" := fun e => hS (by rw [← e]; exact hk)
    have hkE : k ≠ "executor" := fun e => hE (by rw [← e]; exact hk)
    rw [objGet_objSet_ne _ _ _ _ hkS, objGet_objSet_ne _ _ _ _ hkE]
  constructor
  · unfold resolveArgs
    dsimp only
    rw [hex]
    dsimp only
    split
    · rfl
    · exact resolveArgsLoop_id fs _ _ _
        (fun k hk v hv => hurl k hk v ((hout0 k hk) ▸ hv))
  · exact hout0

/-- Witness for C7 at spec scenario 2 with the input already a URL. -/
theorem C7_url_args_unchanged_witness :
    resolveArgs c2Env cFsOk []
        "/tmp/ws" [("input_structure",
          PyVal.str "https://bucket.h/x/ok.cif")]
        "calc_optimize_structure" "calc" none
      = Except.ok [("input_structure", PyVal.str "https://bucket.h/x/ok.cif"),
          ("executor", PyVal.pynone),
          ("storage", getBohriumStorageConfig c2Env)] :=
  (C7_url_args_unchanged c2Env [] "/tmp/ws"
    [("input_structure", PyVal.str "https://bucket.h/x/ok.cif")]
    "calc_optimize_structure" "calc" none PyVal.pynone rfl
    (by decide) (by decide)
    (by
      intro k hk v hv
      have hpan : pathArgNamesFor
          (remoteNameOf "calc_optimize_structure" "calc") none
          = ["input_structure"] := by decide
      rw [hpan] at hk
      have hk2 : k = "input_structure" := by simpa using hk
      subst hk2
      have hv2 : some (PyVal.str "https://bucket.h/x/ok.cif") = some v := hv
      injection hv2 with hv3
      rw [← hv3]
      decide) cFsOk).1

end EvoMaster
